import Mathlib

/-!
Verification of the Netflix data-analysis script (`src/main.py`).

The script is a single procedure `analyze_netflix_data`: it loads a CSV with
`pd.read_csv(file_name, na_values=['Not Given'])`, deduplicates rows by
`title` (keeping the first occurrence), fills missing `director`/`country`
with `"Unknown"`, strips and parses `date_added` with the fixed format
`%m/%d/%Y` (`errors='coerce'`), drops rows whose date failed to parse,
derives integer `year_added`/`month_added`, writes the cleaned table to
`netflix_cleaned.csv`, and then renders eight plots.

The embedding below models the record set at the level of CSV cell strings.
Loaded fields are `Option String` (`none` = pandas `NaN`).  For the
`date_added` column — the one the script applies the `.str` accessor to —
the dtype inference of `read_csv` is modelled explicitly: a column with no
plain-string cell (every cell null, numeric, or boolean) is inferred
non-object and the `.str` accessor raises; otherwise the column holds its
cells as strings.
-/

/-! ### Python / pandas string primitives -/

/-- Whitespace characters stripped by Python's `str.strip()` (ASCII part). -/
def isPySpace (c : Char) : Bool :=
  c = ' ' || c = '\t' || c = '\n' || c = '\x0d' || c = '\x0b' || c = '\x0c'

/-- Model of Python `str.strip()` / pandas `.str.strip()` on one value:
remove leading and trailing whitespace. -/
def pyStrip (s : String) : String :=
  ⟨((s.data.dropWhile isPySpace).reverse.dropWhile isPySpace).reverse⟩

/-- `leadsWith pat cs` is true when `pat` is an initial segment of `cs`. -/
def leadsWith : List Char → List Char → Bool
  | [], _ => true
  | _ :: _, [] => false
  | p :: ps, c :: cs => p = c && leadsWith ps cs

/-- Worker for `replaceList`, structurally recursive on a fuel argument
(the fuel is always at least the list length, so the `0` arm is never
reached on the lists actually passed). -/
def replaceListF (pat rep : List Char) : Nat → List Char → List Char
  | 0, cs => cs
  | _ + 1, [] => []
  | fuel + 1, c :: cs =>
    if pat ≠ [] && leadsWith pat (c :: cs) then
      rep ++ replaceListF pat rep fuel ((c :: cs).drop pat.length)
    else
      c :: replaceListF pat rep fuel cs

/-- Left-to-right, non-overlapping replacement of every occurrence of
`pat` by `rep`, as in Python `str.replace` / pandas `.str.replace` with a
literal pattern.  (A `[]` pattern is returned unchanged; the script only
uses non-empty patterns.) -/
def replaceList (pat rep cs : List Char) : List Char :=
  replaceListF pat rep cs.length cs

/-- Model of Python `s.replace(pat, rep)` (all occurrences, literal). -/
def pyReplace (s pat rep : String) : String :=
  ⟨replaceList pat.data rep.data s.data⟩

/-- The digit character for `n % 10`. -/
def digitChar (n : Nat) : Char :=
  match n % 10 with
  | 0 => '0' | 1 => '1' | 2 => '2' | 3 => '3' | 4 => '4'
  | 5 => '5' | 6 => '6' | 7 => '7' | 8 => '8' | _ => '9'

/-- Worker for `natDigits`, structurally recursive on a fuel argument
(fuel `n` always suffices since `n < 10 ^ (n + 1)`). -/
def natDigitsF : Nat → Nat → List Char
  | 0, n => [digitChar n]
  | fuel + 1, n =>
    if n < 10 then [digitChar n]
    else natDigitsF fuel (n / 10) ++ [digitChar n]

/-- Decimal digits of `n`, most significant first. -/
def natDigits (n : Nat) : List Char :=
  natDigitsF n n

/-- Decimal rendering of a natural number (as pandas writes integers). -/
def natStr (n : Nat) : String := ⟨natDigits n⟩

/-- Numeric value of a list of decimal digit characters. -/
def digitsVal (cs : List Char) : Nat :=
  cs.foldl (fun a c => a * 10 + (c.toNat - 48)) 0

/-- A non-empty all-digit run parsed to its value, else `none`. -/
def digitsOpt (cs : List Char) : Option Nat :=
  if cs ≠ [] ∧ cs.all Char.isDigit then some (digitsVal cs) else none

/-- Model of Python `int(s)` on a string: optional surrounding whitespace,
optional sign, then a non-empty digit run.  (Python's tolerance for
underscore separators and non-ASCII digits is not modelled; no claim
depends on it.) -/
def pyInt (s : String) : Option Int :=
  match (pyStrip s).data with
  | [] => none
  | c :: cs =>
    if c = '-' then (digitsOpt cs).map (fun k => -(Int.ofNat k))
    else if c = '+' then (digitsOpt cs).map (fun k => Int.ofNat k)
    else (digitsOpt (c :: cs)).map (fun k => Int.ofNat k)

/-! ### The `read_csv` null model -/

/-- The strings `pd.read_csv` recognises as null markers: its default
`STR_NA_VALUES` plus the explicit `na_values=['Not Given']` from
`src/main.py` line 11 (`keep_default_na` is left at `True`). -/
def naStrings : List String :=
  ["", "#N/A", "#N/A N/A", "#NA", "-1.#IND", "-1.#QNAN", "-NaN", "-nan",
   "1.#IND", "1.#QNAN", "<NA>", "N/A", "NA", "NULL", "NaN", "None",
   "n/a", "nan", "null", "Not Given"]

/-- Loading one CSV cell: null markers become `NaN` (`none`), every other
cell is kept as its string. -/
def loadCell (s : String) : Option String :=
  if s ∈ naStrings then none else some s

/-! ### Dates: `pd.to_datetime(-, format='%m/%d/%Y', errors='coerce')` -/

/-- A calendar date as carried by a (midnight) pandas timestamp. -/
structure Date where
  year : Nat
  month : Nat
  day : Nat
  deriving DecidableEq, Repr

/-- Split a character list at every `'/'` (occurrences removed). -/
def splitSlash : List Char → List (List Char)
  | [] => [[]]
  | c :: cs =>
    if c = '/' then [] :: splitSlash cs
    else
      match splitSlash cs with
      | [] => [[c]]
      | p :: ps => (c :: p) :: ps

/-- A month/day field of `strptime`: the CPython patterns are
`%m = 1[0-2]|0[1-9]|[1-9]` and `%d = 3[01]|[12]\d|0[1-9]|[1-9]`, i.e. one
digit `1-9` or two digits with value `1..hi` (`hi` = 12 or 31). -/
def partOk (cs : List Char) (hi : Nat) : Bool :=
  cs.all Char.isDigit &&
    ((cs.length == 1 && decide (1 ≤ digitsVal cs)) ||
     (cs.length == 2 && decide (1 ≤ digitsVal cs) && decide (digitsVal cs ≤ hi)))

/-- The `%Y` field of `strptime`: exactly four digits. -/
def yearPartOk (cs : List Char) : Bool :=
  cs.all Char.isDigit && cs.length == 4

/-- Gregorian leap-year rule, as used by Python `datetime`. -/
def isLeap (y : Nat) : Bool :=
  (y % 4 == 0 && y % 100 != 0) || y % 400 == 0

/-- Days in a month, as validated by the `datetime` constructor. -/
def daysInMonth (y m : Nat) : Nat :=
  if m = 2 then (if isLeap y then 29 else 28)
  else if m = 4 || m = 6 || m = 9 || m = 11 then 30
  else 31

/-- Lexicographic order on dates (as `Bool`). -/
def dateLe (a b : Date) : Bool :=
  decide (a.year < b.year) ||
    (a.year == b.year &&
      (decide (a.month < b.month) ||
        (a.month == b.month && decide (a.day ≤ b.day))))

/-- A midnight timestamp is representable in pandas `datetime64[ns]` iff
it lies in `1677-09-22 .. 2262-04-11`; outside this range `to_datetime`
raises `OutOfBoundsDatetime`, coerced to `NaT` by `errors='coerce'`. -/
def inTsBounds (d : Date) : Bool :=
  dateLe ⟨1677, 9, 22⟩ d && dateLe d ⟨2262, 4, 11⟩

/-- Model of `pd.to_datetime(s, format='%m/%d/%Y', errors='coerce')` on a
single already-stripped string: the whole string must match
`%m` `/` `%d` `/` `%Y` (CPython `strptime` field patterns), the result must
be a valid calendar date, and it must be in `datetime64[ns]` range;
otherwise the value is `NaT` (`none`). -/
def parseMDY (s : String) : Option Date :=
  match splitSlash s.data with
  | [ms, ds, ys] =>
    if partOk ms 12 && partOk ds 31 && yearPartOk ys then
      let d : Date := ⟨digitsVal ys, digitsVal ms, digitsVal ds⟩
      if d.day ≤ daysInMonth d.year d.month && inTsBounds d then some d else none
    else none
  | _ => none

/-! ### The record set -/

/-- One data row of the source CSV, at cell-string level.  Column names and
order follow the required columns of the script (`rtype` models the
`type` column, a Lean keyword). -/
structure RawRow where
  title : String
  director : String
  country : String
  date_added : String
  rtype : String
  duration : String
  rating : String
  listed_in : String
  deriving DecidableEq, Repr

/-- A loaded record (`pd.read_csv` output row): each cell is `none` when it
was a null marker. -/
structure Record where
  title : Option String
  director : Option String
  country : Option String
  date_added : Option String
  rtype : Option String
  duration : Option String
  rating : Option String
  listed_in : Option String
  deriving DecidableEq, Repr

/-- `pd.read_csv` on one row (`src/main.py` line 11). -/
def loadRow (w : RawRow) : Record :=
  { title := loadCell w.title
    director := loadCell w.director
    country := loadCell w.country
    date_added := loadCell w.date_added
    rtype := loadCell w.rtype
    duration := loadCell w.duration
    rating := loadCell w.rating
    listed_in := loadCell w.listed_in }

/-- `pd.read_csv` on the whole table. -/
def loadData (rows : List RawRow) : List Record :=
  rows.map loadRow

/-- Worker for `drop_duplicates(subset=['title'], keep='first')`:
`seen` is the set of titles already emitted; a row is kept iff its title
(`NaN` titles compare equal, as in pandas) has not been seen. -/
def dedupeAux (seen : List (Option String)) : List Record → List Record
  | [] => []
  | r :: rs =>
    if r.title ∈ seen then dedupeAux seen rs
    else r :: dedupeAux (r.title :: seen) rs

/-- `data.drop_duplicates(subset=['title'], keep='first')`
(`src/main.py` line 26; `reset_index` on line 27 only renumbers). -/
def dedupeByTitle (rs : List Record) : List Record :=
  dedupeAux [] rs

/-- `fillna('Unknown')` on `director` and `country`
(`src/main.py` lines 31-32). -/
def imputeRecord (r : Record) : Record :=
  { r with
    director := some (r.director.getD "Unknown")
    country := some (r.country.getD "Unknown") }

/-- The imputation pass over the record set. -/
def imputeAll (rs : List Record) : List Record :=
  rs.map imputeRecord

/-- A cleaned record: parsed non-null date plus derived integer columns
(`src/main.py` lines 36-44). -/
structure CRecord where
  title : Option String
  director : Option String
  country : Option String
  date_added : Date
  rtype : Option String
  duration : Option String
  rating : Option String
  listed_in : Option String
  year_added : Nat
  month_added : Nat
  deriving DecidableEq, Repr

/-- Strip, parse and derive for one record: `NaN` stays `NaN` under
`.str.strip()`, an unparseable date is coerced to `NaT`, and rows with
`NaT` are removed by `dropna(subset=['date_added'])`; survivors get
`year_added`/`month_added` from the parsed date. -/
def parseRecDate (r : Record) : Option CRecord :=
  match r.date_added with
  | none => none
  | some s =>
    match parseMDY (pyStrip s) with
    | none => none
    | some d =>
      some { title := r.title
             director := r.director
             country := r.country
             date_added := d
             rtype := r.rtype
             duration := r.duration
             rating := r.rating
             listed_in := r.listed_in
             year_added := d.year
             month_added := d.month }

/-- ASCII lower-casing of one character. -/
def asciiLower (c : Char) : Char :=
  if 'A' ≤ c ∧ c ≤ 'Z' then Char.ofNat (c.toNat + 32) else c

/-- Boolean tokens recognised by the `read_csv` C parser (`True`/`False`;
modelled case-insensitively — accepting more casings only widens the
modelled raise condition, the safe direction for the totality claim).
A column whose non-null cells all have this shape is inferred boolean. -/
def csvBoolLike (s : String) : Bool :=
  s.data.map asciiLower = "true".data || s.data.map asciiLower = "false".data

/-- Drop a single leading sign, if any. -/
def afterSign (cs : List Char) : List Char :=
  match cs with
  | [] => []
  | c :: rest => if c = '+' || c = '-' then rest else c :: rest

/-- Exponent tail of a float token: nothing, or `e`/`E`, an optional
sign, then one or more digits. -/
def expOk (cs : List Char) : Bool :=
  match cs with
  | [] => true
  | c :: rest =>
    if c = 'e' || c = 'E' then
      !(afterSign rest).isEmpty && (afterSign rest).all Char.isDigit
    else false

/-- Mantissa of a float token after the sign: digits, optionally a
decimal point with optional further digits (digits must appear on at
least one side of the point), then an optional exponent. -/
def floatBody (cs : List Char) : Bool :=
  match cs.dropWhile Char.isDigit with
  | [] => !(cs.takeWhile Char.isDigit).isEmpty
  | c :: rest2 =>
    if c = '.' then
      (!(cs.takeWhile Char.isDigit).isEmpty ||
        !(rest2.takeWhile Char.isDigit).isEmpty) &&
        expOk (rest2.dropWhile Char.isDigit)
    else !(cs.takeWhile Char.isDigit).isEmpty && expOk (c :: rest2)

/-- Surrounding spaces removed (the tokenizer's numeric converter skips
them). -/
def stripSpacesList (cs : List Char) : List Char :=
  ((cs.dropWhile (fun c => c = ' ')).reverse.dropWhile (fun c => c = ' ')).reverse

/-- Numeric tokens recognised by the `read_csv` C parser: optional
surrounding spaces, an optional sign, then a decimal/exponent body or a
(case-insensitive) infinity word.  A column whose non-null cells all have
this shape is inferred `int64`/`float64`.  (Tolerating surrounding
spaces and every casing only widens the modelled raise condition — the
safe direction.) -/
def csvFloatLike (s : String) : Bool :=
  floatBody (afterSign (stripSpacesList s.data)) ||
    (afterSign (stripSpacesList s.data)).map asciiLower = "inf".data ||
    (afterSign (stripSpacesList s.data)).map asciiLower = "infinity".data

/-- Whether a loaded cell is compatible with the numeric branch of dtype
inference: nulls are (they give `float64` with `NaN`). -/
def cellFloatish : Option String → Bool
  | none => true
  | some s => csvFloatLike s

/-- Same for the boolean branch.  Nulls are compatible too: booleans with
missing values load as an object column of boolean objects, whose
inferred type is still `boolean`, so the `.str` accessor raises there as
well. -/
def cellBoolish : Option String → Bool
  | none => true
  | some s => csvBoolLike s

/-- Dtype inference of `read_csv` for the `date_added` column: the column
is NOT object-of-strings — so `data['date_added'].str` at line 36 raises
`AttributeError` — exactly when the loaded record set is non-empty and
every cell is null-or-numeric (column `int64`/`float64`, e.g. all cells
empty, or all `"20210925"`) or every cell is null-or-boolean.  When at
least one cell is a plain string, `read_csv` keeps the whole column as
strings and the `.str` accessor accepts it, also after deduplication has
removed rows (the dtype is fixed at load time). -/
def dateColumnNonObject (rs : List Record) : Bool :=
  !rs.isEmpty &&
    (rs.all (fun r => cellFloatish r.date_added) ||
     rs.all (fun r => cellBoolish r.date_added))

/-- The date passes themselves (`src/main.py` lines 36-44), total: strip,
coerce-parse, drop `NaT` rows, derive `year_added`/`month_added`. -/
def dateDerive (l : List Record) : List CRecord :=
  l.filterMap parseRecDate

/-- The cleaning passes after loading, in source order: deduplicate
(line 26), impute (lines 31-32), dates and derived columns (lines 36-44).
When the loaded `date_added` column was inferred non-object (no cell is a
plain string), `data['date_added'].str.strip()` raises and the run
aborts; the check is on the loaded rows because the dtype is decided by
`read_csv`, before deduplication. -/
def cleanRecords (rs : List Record) : Except String (List CRecord) :=
  if dateColumnNonObject rs then
    .error "AttributeError: Can only use .str accessor with string values"
  else
    .ok (dateDerive (imputeAll (dedupeByTitle rs)))

/-- The whole cleaning pipeline from raw CSV rows. -/
def cleanRaw (rows : List RawRow) : Except String (List CRecord) :=
  cleanRecords (loadData rows)

/-! ### Persisting the cleaned set (`to_csv`, line 48) and reloading -/

/-- One written row of `netflix_cleaned.csv`: every cell as the string
`to_csv` emits.  Nulls are written as empty cells, the `datetime64` date
column (all values midnight) is written as ISO `YYYY-MM-DD`, and the
derived integer columns in plain decimal. -/
structure CleanedCsvRow where
  title : String
  director : String
  country : String
  date_added : String
  rtype : String
  duration : String
  rating : String
  listed_in : String
  year_added : String
  month_added : String
  deriving DecidableEq, Repr

/-- `to_csv` cell for an optional string: `NaN` becomes an empty cell. -/
def encodeOpt (o : Option String) : String :=
  o.getD ""

/-- Two-digit zero-padded decimal (months/days of the ISO date). -/
def pad2 (n : Nat) : List Char :=
  [digitChar (n / 10), digitChar n]

/-- Four-digit zero-padded decimal; exact for `n ≤ 9999`, which holds for
every year produced by the four-digit `%Y` parse. -/
def pad4 (n : Nat) : List Char :=
  [digitChar (n / 1000), digitChar (n / 100), digitChar (n / 10), digitChar n]

/-- The ISO `YYYY-MM-DD` cell `to_csv` writes for a midnight timestamp. -/
def isoDate (d : Date) : String :=
  ⟨pad4 d.year ++ '-' :: (pad2 d.month ++ '-' :: pad2 d.day)⟩

/-- `to_csv` on one cleaned record (`src/main.py` line 48). -/
def persistRecord (c : CRecord) : CleanedCsvRow :=
  { title := encodeOpt c.title
    director := encodeOpt c.director
    country := encodeOpt c.country
    date_added := isoDate c.date_added
    rtype := encodeOpt c.rtype
    duration := encodeOpt c.duration
    rating := encodeOpt c.rating
    listed_in := encodeOpt c.listed_in
    year_added := natStr c.year_added
    month_added := natStr c.month_added }

/-- A reloaded row of the cleaned file: `read_csv` applies the null-marker
filter to every column again and performs no re-derivation. -/
structure ReloadedRow where
  title : Option String
  director : Option String
  country : Option String
  date_added : Option String
  rtype : Option String
  duration : Option String
  rating : Option String
  listed_in : Option String
  year_added : Option String
  month_added : Option String
  deriving DecidableEq, Repr

/-- `pd.read_csv('netflix_cleaned.csv', na_values=['Not Given'])` on one
written row. -/
def reloadRow (w : CleanedCsvRow) : ReloadedRow :=
  { title := loadCell w.title
    director := loadCell w.director
    country := loadCell w.country
    date_added := loadCell w.date_added
    rtype := loadCell w.rtype
    duration := loadCell w.duration
    rating := loadCell w.rating
    listed_in := loadCell w.listed_in
    year_added := loadCell w.year_added
    month_added := loadCell w.month_added }

/-- Restriction of a written cleaned row to the original input columns
(dropping the derived `year_added`/`month_added`), as used when feeding
the cleaned output back into the pipeline. -/
def restrictRow (w : CleanedCsvRow) : RawRow :=
  { title := w.title
    director := w.director
    country := w.country
    date_added := w.date_added
    rtype := w.rtype
    duration := w.duration
    rating := w.rating
    listed_in := w.listed_in }

/-- CSV field quoting as `to_csv` performs it (minimal quoting). -/
def csvField (s : String) : String :=
  if s.data.any (fun c => c = ',' || c = '"' || c = '\n' || c = '\x0d') then
    "\"" ++ ⟨s.data.foldr (fun c a => if c = '"' then '"' :: '"' :: a else c :: a) []⟩ ++ "\""
  else s

/-- The header line `to_csv` writes (input column order per the spec,
plus the derived columns appended at the end). -/
def csvHeader : String :=
  "title,director,country,date_added,type,duration,rating,listed_in,year_added,month_added"

/-- One serialized data line. -/
def csvLine (w : CleanedCsvRow) : String :=
  String.intercalate ","
    ([w.title, w.director, w.country, w.date_added, w.rtype, w.duration,
      w.rating, w.listed_in, w.year_added, w.month_added].map csvField)

/-- The bytes written to `netflix_cleaned.csv`. -/
def serializeCleaned (ws : List CleanedCsvRow) : String :=
  String.intercalate "\n" (csvHeader :: ws.map csvLine) ++ "\n"

/-! ### The Report Renderer (`src/main.py` lines 52-152) -/

/-- `movies_df['duration'].str.replace(' min', '').astype(int)` on one
value (line 131): every occurrence of the substring `' min'` is removed
(not just a trailing label), then the remainder is converted with `int`;
a null duration or a non-numeric remainder raises an uncaught
`ValueError`. -/
def movieDuration (o : Option String) : Except String Int :=
  match o with
  | none => .error "ValueError: cannot convert float NaN to integer"
  | some s =>
    match pyInt (pyReplace s " min" "") with
    | some n => .ok n
    | none => .error "ValueError: invalid literal for int()"

/-- `tv_shows_df['duration'].str.replace(' Seasons', '').str.replace(' Season', '').astype(int)`
on one value (line 144): every occurrence of `' Seasons'` is removed, then
every occurrence of `' Season'`, then `int` conversion; failures raise as
for movies. -/
def tvDuration (o : Option String) : Except String Int :=
  match o with
  | none => .error "ValueError: cannot convert float NaN to integer"
  | some s =>
    match pyInt (pyReplace (pyReplace s " Seasons" "") " Season" "") with
    | some n => .ok n
    | none => .error "ValueError: invalid literal for int()"

/-- Whether a duration parse succeeded. -/
def durOk : Except String Int → Bool
  | .ok _ => true
  | .error _ => false

/-- The renderer, at artifact level: which image files get written, and
whether an uncaught per-record parse error aborts the run.  Plots 1-4 are
pure grouping/counting.  Plot 5 (`data['listed_in'].str.split`, line 104)
raises when the record set is non-empty with an all-null `listed_in`
column (non-string `.str` accessor, as for dates).  Plot 7 aborts when any
movie duration fails to parse (line 131), plot 8 when any TV-show duration
fails (line 144); rendering after an abort does not happen.  Chart
drawing itself is treated as total. -/
def renderAll (out : List CRecord) : List String × Bool :=
  let p4 := ["plot1_content_type_distribution.png",
             "plot2_content_added_over_time.png",
             "plot3_top_15_directors.png",
             "plot4_top_15_countries.png"]
  if out ≠ [] ∧ ∀ r ∈ out, r.listed_in = none then (p4, true)
  else
    let p6 := p4 ++ ["plot5_top_15_genres.png", "plot6_rating_distribution.png"]
    let movies := out.filter (fun r => r.rtype == some "Movie")
    if movies.all (fun r => durOk (movieDuration r.duration)) then
      let p7 := p6 ++ ["plot7_movie_duration_histogram.png"]
      let tv := out.filter (fun r => r.rtype == some "TV Show")
      if tv.all (fun r => durOk (tvDuration r.duration)) then
        (p7 ++ ["plot8_tv_show_seasons_distribution.png"], false)
      else (p7, true)
    else (p6, true)

/-! ### The whole procedure `analyze_netflix_data` -/

/-- The outcome of `pd.read_csv(file_name, ...)` at line 11: success with
the parsed rows, `FileNotFoundError` (caught at line 12), or any other
exception during loading (caught at line 15). -/
inductive LoadOutcome where
  | ok (rows : List RawRow)
  | fileNotFound (fileName : String)
  | otherError (msg : String)
  deriving Repr

/-- Observable result of one run of `analyze_netflix_data`: console log,
contents written to `netflix_cleaned.csv` (`none` = file never written),
image artifacts written, whether an uncaught exception escaped, and the
process exit code. -/
structure RunResult where
  log : List String
  cleanedWritten : Option String
  plotsWritten : List String
  raised : Bool
  exitCode : Nat
  deriving DecidableEq, Repr

/-- `analyze_netflix_data` (`src/main.py` lines 6-154).  On a load
failure the handler prints a message and `return`s: no cleaning pass runs,
nothing is written, and the process still exits 0.  On success the
cleaning passes run (the date pass may raise, line 36), the cleaned file
is written, and the renderer runs (duration parses may raise).  Per-plot
"Generated plot N" lines are summarised by `plotsWritten`. -/
def analyze : LoadOutcome → RunResult
  | .fileNotFound fileName =>
    { log := ["Loading data...",
              "Error: The file '" ++ fileName ++ "' was not found."]
      cleanedWritten := none
      plotsWritten := []
      raised := false
      exitCode := 0 }
  | .otherError msg =>
    { log := ["Loading data...",
              "An error occurred while loading data: " ++ msg]
      cleanedWritten := none
      plotsWritten := []
      raised := false
      exitCode := 0 }
  | .ok rows =>
    let l := loadData rows
    let baseLog := ["Loading data...", "Data loaded successfully.", "Cleaning data...",
      "Dropped " ++ natStr (l.length - (dedupeByTitle l).length) ++ " duplicate titles.",
      "Filled missing 'director' and 'country' values with 'Unknown'."]
    match cleanRecords l with
    | .error _ =>
      { log := baseLog
        cleanedWritten := none
        plotsWritten := []
        raised := true
        exitCode := 1 }
    | .ok out =>
      let rendered := renderAll out
      { log := baseLog ++ ["Cleaned data saved to netflix_cleaned.csv",
                           "Starting analysis and visualization..."] ++
               (if rendered.2 then [] else ["\n--- Analysis Complete ---"])
        cleanedWritten := some (serializeCleaned (out.map persistRecord))
        plotsWritten := rendered.1
        raised := rendered.2
        exitCode := if rendered.2 then 1 else 0 }

/-! ### Helper lemmas: characters and digits -/

/-- No occurrence of `pat` anywhere in the list. -/
def noOccur (pat : List Char) : List Char → Bool
  | [] => true
  | c :: cs => !(leadsWith pat (c :: cs)) && noOccur pat cs

theorem digitChar_mem (n : Nat) :
    digitChar n ∈ ['0', '1', '2', '3', '4', '5', '6', '7', '8', '9'] := by
  unfold digitChar
  split <;> simp

theorem digitChar_isDigit (n : Nat) : (digitChar n).isDigit = true := by
  have h := digitChar_mem n
  generalize digitChar n = c at h
  fin_cases h <;> decide

theorem digitChar_val (n : Nat) : (digitChar n).toNat - 48 = n % 10 := by
  have hlt : n % 10 < 10 := Nat.mod_lt _ (by omega)
  unfold digitChar
  split <;> simp_all <;> omega

theorem isDigit_ne {c x : Char} (h : c.isDigit = true) (hx : x.isDigit = false) :
    c ≠ x := by
  intro hc
  rw [hc, hx] at h
  exact absurd h (by simp)

theorem isDigit_not_pySpace {c : Char} (h : c.isDigit = true) :
    isPySpace c = false := by
  cases hip : isPySpace c with
  | false => rfl
  | true =>
    exfalso
    simp only [isPySpace, Bool.or_eq_true, decide_eq_true_eq] at hip
    rcases hip with ((((rfl | rfl) | rfl) | rfl) | rfl) | rfl <;> simp [Char.isDigit] at h

theorem natDigitsF_ne_nil (fuel n : Nat) : natDigitsF fuel n ≠ [] := by
  cases fuel with
  | zero => simp [natDigitsF]
  | succ f =>
    rw [natDigitsF]
    split <;> simp

theorem natDigitsF_all_digit :
    ∀ fuel n, ∀ c ∈ natDigitsF fuel n, c.isDigit = true := by
  intro fuel
  induction fuel with
  | zero =>
    intro n c hc
    simp only [natDigitsF, List.mem_singleton] at hc
    subst hc
    exact digitChar_isDigit n
  | succ f ih =>
    intro n c hc
    rw [natDigitsF] at hc
    split at hc
    · simp only [List.mem_singleton] at hc
      subst hc
      exact digitChar_isDigit n
    · rcases List.mem_append.mp hc with h1 | h1
      · exact ih _ c h1
      · simp only [List.mem_singleton] at h1
        subst h1
        exact digitChar_isDigit n

theorem natDigits_ne_nil (n : Nat) : natDigits n ≠ [] :=
  natDigitsF_ne_nil n n

theorem natDigits_all_digit (n : Nat) : ∀ c ∈ natDigits n, c.isDigit = true :=
  fun c hc => natDigitsF_all_digit n n c hc

theorem digitsVal_append_one (xs : List Char) (c : Char) :
    digitsVal (xs ++ [c]) = 10 * digitsVal xs + (c.toNat - 48) := by
  simp [digitsVal, List.foldl_append]
  omega

theorem natDigitsF_val :
    ∀ fuel n, n < 10 ^ (fuel + 1) → digitsVal (natDigitsF fuel n) = n := by
  intro fuel
  induction fuel with
  | zero =>
    intro n h
    have h10 : n < 10 := by simpa using h
    simp [natDigitsF, digitsVal, digitChar_val]
    omega
  | succ f ih =>
    intro n h
    rw [natDigitsF]
    split
    · rename_i hlt
      simp [digitsVal, digitChar_val]
      omega
    · rename_i hge
      rw [digitsVal_append_one, digitChar_val]
      have hdiv : n / 10 < 10 ^ (f + 1) := by
        rw [Nat.div_lt_iff_lt_mul (by omega)]
        calc n < 10 ^ (f + 1 + 1) := h
          _ = 10 ^ (f + 1) * 10 := by rw [pow_succ]
      rw [ih (n / 10) hdiv]
      omega

theorem digitsVal_natDigits (n : Nat) : digitsVal (natDigits n) = n := by
  apply natDigitsF_val
  calc n < 10 ^ n := Nat.lt_pow_self (by omega) n
    _ ≤ 10 ^ (n + 1) := Nat.pow_le_pow_right (by omega) (by omega)

/-! ### Helper lemmas: stripping -/

theorem dropWhile_of_all_false {p : Char → Bool} {l : List Char}
    (h : ∀ c ∈ l, p c = false) : l.dropWhile p = l := by
  cases l with
  | nil => rfl
  | cons x xs =>
    rw [List.dropWhile_cons, if_neg]
    simp [h x (by simp)]

theorem pyStrip_of_no_space {cs : List Char}
    (h : ∀ c ∈ cs, isPySpace c = false) : pyStrip ⟨cs⟩ = ⟨cs⟩ := by
  unfold pyStrip
  rw [show (String.mk cs).data = cs from rfl]
  rw [dropWhile_of_all_false h]
  rw [dropWhile_of_all_false (fun c hc => h c (List.mem_reverse.mp hc))]
  simp

theorem pyStrip_digits (cs : List Char) (h : ∀ c ∈ cs, c.isDigit = true) :
    pyStrip ⟨cs⟩ = ⟨cs⟩ :=
  pyStrip_of_no_space (fun c hc => isDigit_not_pySpace (h c hc))

/-! ### Helper lemmas: replacement -/

theorem leadsWith_self (l : List Char) : leadsWith l l = true := by
  induction l with
  | nil => rfl
  | cons c cs ih => simp [leadsWith, ih]

theorem leadsWith_ne_head {p c : Char} {ps cs : List Char} (h : c ≠ p) :
    leadsWith (p :: ps) (c :: cs) = false := by
  simp [leadsWith]
  intro hpc
  exact absurd hpc.symm h

theorem replaceListF_nil (pat rep : List Char) (fuel : Nat) :
    replaceListF pat rep fuel [] = [] := by
  cases fuel <;> rfl

theorem replaceListF_of_noOccur {pat : List Char} (rep : List Char) :
    ∀ (fuel : Nat) (cs : List Char), noOccur pat cs = true →
      replaceListF pat rep fuel cs = cs := by
  intro fuel
  induction fuel with
  | zero => intro cs _; rfl
  | succ f ih =>
    intro cs h
    cases cs with
    | nil => rfl
    | cons c cs =>
      simp only [noOccur, Bool.and_eq_true, Bool.not_eq_true'] at h
      rw [replaceListF, if_neg (by simp [h.1])]
      rw [ih cs h.2]

theorem replaceList_of_noOccur {pat : List Char} (rep : List Char) {cs : List Char}
    (h : noOccur pat cs = true) : replaceList pat rep cs = cs :=
  replaceListF_of_noOccur rep cs.length cs h

theorem noOccur_append {p : Char} {ps xs ys : List Char}
    (hx : ∀ c ∈ xs, c ≠ p) (hy : noOccur (p :: ps) ys = true) :
    noOccur (p :: ps) (xs ++ ys) = true := by
  induction xs with
  | nil => simpa using hy
  | cons x xs ih =>
    simp only [List.cons_append, noOccur, Bool.and_eq_true, Bool.not_eq_true']
    constructor
    · rw [leadsWith_ne_head (hx x (by simp))]
    · exact ih (fun c hc => hx c (by simp [hc]))

theorem replaceListF_append_end {p : Char} {ps : List Char} (rep : List Char) :
    ∀ (xs : List Char) (fuel : Nat), (xs ++ p :: ps).length ≤ fuel →
      (∀ c ∈ xs, c ≠ p) →
      replaceListF (p :: ps) rep fuel (xs ++ p :: ps) = xs ++ rep := by
  intro xs
  induction xs with
  | nil =>
    intro fuel hlen _hx
    cases fuel with
    | zero => simp at hlen
    | succ f =>
      simp only [List.nil_append]
      rw [replaceListF, if_pos (by simp [leadsWith_self])]
      rw [show (p :: ps).drop (p :: ps).length = [] by simp]
      rw [replaceListF_nil]
      simp
  | cons x xs ih =>
    intro fuel hlen hx
    cases fuel with
    | zero => simp at hlen
    | succ f =>
      simp only [List.cons_append]
      rw [replaceListF, if_neg (by rw [leadsWith_ne_head (hx x (by simp))]; simp)]
      rw [ih f (by simp only [List.length_append, List.length_cons] at hlen ⊢; omega)
        (fun c hc => hx c (by simp [hc]))]

theorem replaceList_append_end {p : Char} {ps xs : List Char} (rep : List Char)
    (hx : ∀ c ∈ xs, c ≠ p) :
    replaceList (p :: ps) rep (xs ++ p :: ps) = xs ++ rep :=
  replaceListF_append_end rep xs (xs ++ p :: ps).length (Nat.le_refl _) hx

/-! ### Helper lemmas: null markers and cells -/

theorem loadCell_roundTrip (s : String) :
    loadCell (encodeOpt (loadCell s)) = loadCell s := by
  by_cases h : s ∈ naStrings
  · have h1 : loadCell s = none := by simp [loadCell, h]
    rw [h1]
    show loadCell "" = none
    decide
  · have h1 : loadCell s = some s := by simp [loadCell, h]
    rw [h1]
    exact h1

theorem naStrings_short : ∀ t ∈ naStrings, t.length ≤ 9 := by decide

theorem naStrings_not_digits :
    ∀ t ∈ naStrings, ¬(t.data ≠ [] ∧ ∀ c ∈ t.data, c.isDigit = true) := by decide

theorem natStr_not_na (n : Nat) : natStr n ∉ naStrings := by
  intro h
  exact naStrings_not_digits _ h ⟨natDigits_ne_nil n, natDigits_all_digit n⟩

theorem loadCell_natStr (n : Nat) : loadCell (natStr n) = some (natStr n) := by
  unfold loadCell
  rw [if_neg (natStr_not_na n)]

/-! ### Helper lemmas: `pyInt` on rendered numbers -/

theorem pyInt_natDigits (n : Nat) : pyInt ⟨natDigits n⟩ = some (Int.ofNat n) := by
  unfold pyInt
  rw [pyStrip_digits _ (natDigits_all_digit n)]
  rw [show (String.mk (natDigits n)).data = natDigits n from rfl]
  cases h : natDigits n with
  | nil => exact absurd h (natDigits_ne_nil n)
  | cons c cs =>
    have hc : c.isDigit = true := natDigits_all_digit n c (by rw [h]; simp)
    show (if c = '-' then (digitsOpt cs).map (fun k => -(Int.ofNat k))
          else if c = '+' then (digitsOpt cs).map (fun k => Int.ofNat k)
          else (digitsOpt (c :: cs)).map (fun k => Int.ofNat k)) = some (Int.ofNat n)
    rw [if_neg (isDigit_ne hc (by decide : ('-' : Char).isDigit = false)),
        if_neg (isDigit_ne hc (by decide : ('+' : Char).isDigit = false))]
    have hall : ∀ x ∈ c :: cs, x.isDigit = true := by
      rw [← h]
      exact natDigits_all_digit n
    rw [digitsOpt, if_pos ⟨by simp, by simpa [List.all_eq_true] using hall⟩]
    rw [← h, digitsVal_natDigits]
    rfl

/-! ### Helper lemmas: the ISO date cell -/

theorem isoDate_data (d : Date) :
    (isoDate d).data =
      [digitChar (d.year / 1000), digitChar (d.year / 100), digitChar (d.year / 10),
       digitChar d.year, '-', digitChar (d.month / 10), digitChar d.month, '-',
       digitChar (d.day / 10), digitChar d.day] := rfl

theorem isoDate_chars (d : Date) :
    ∀ c ∈ (isoDate d).data, c.isDigit = true ∨ c = '-' := by
  rw [isoDate_data]
  intro c hc
  simp only [List.mem_cons, List.not_mem_nil, or_false] at hc
  rcases hc with rfl | rfl | rfl | rfl | rfl | rfl | rfl | rfl | rfl | rfl <;>
    first
      | exact Or.inl (digitChar_isDigit _)
      | exact Or.inr rfl

theorem isoDate_length (d : Date) : (isoDate d).length = 10 := rfl

theorem isoDate_not_na (d : Date) : isoDate d ∉ naStrings := by
  intro h
  have := naStrings_short _ h
  rw [isoDate_length] at this
  omega

theorem loadCell_isoDate (d : Date) : loadCell (isoDate d) = some (isoDate d) := by
  unfold loadCell
  rw [if_neg (isoDate_not_na d)]

theorem pyStrip_isoDate (d : Date) : pyStrip (isoDate d) = isoDate d := by
  have h : ∀ c ∈ (isoDate d).data, isPySpace c = false := by
    intro c hc
    rcases isoDate_chars d c hc with h1 | rfl
    · exact isDigit_not_pySpace h1
    · decide
  calc pyStrip (isoDate d) = pyStrip ⟨(isoDate d).data⟩ := rfl
    _ = ⟨(isoDate d).data⟩ := pyStrip_of_no_space h
    _ = isoDate d := rfl

/-! ### Helper lemmas: `parseMDY` rejects slash-free strings -/

theorem splitSlash_no_slash {cs : List Char} (h : ∀ c ∈ cs, c ≠ '/') :
    splitSlash cs = [cs] := by
  induction cs with
  | nil => rfl
  | cons c cs ih =>
    rw [splitSlash, if_neg (by simpa using h c (by simp))]
    rw [ih (fun x hx => h x (by simp [hx]))]

theorem parseMDY_no_slash {s : String} (h : ∀ c ∈ s.data, c ≠ '/') :
    parseMDY s = none := by
  unfold parseMDY
  rw [splitSlash_no_slash h]

theorem parseMDY_isoDate (d : Date) : parseMDY (pyStrip (isoDate d)) = none := by
  rw [pyStrip_isoDate]
  apply parseMDY_no_slash
  intro c hc
  rcases isoDate_chars d c hc with h1 | rfl
  · exact isDigit_ne h1 (by decide)
  · decide

/-! ### Helper lemmas: deduplication -/

theorem dedupeAux_sublist (seen : List (Option String)) (l : List Record) :
    (dedupeAux seen l).Sublist l := by
  induction l generalizing seen with
  | nil => simp [dedupeAux]
  | cons r rs ih =>
    rw [dedupeAux]
    split
    · exact (ih seen).cons r
    · exact (ih (r.title :: seen)).cons₂ r

theorem mem_dedupeByTitle {l : List Record} {r : Record}
    (h : r ∈ dedupeByTitle l) : r ∈ l :=
  (dedupeAux_sublist [] l).subset h

theorem dedupeAux_not_seen {seen : List (Option String)} {l : List Record} {r : Record}
    (h : r ∈ dedupeAux seen l) : r.title ∉ seen := by
  induction l generalizing seen with
  | nil => simp [dedupeAux] at h
  | cons x xs ih =>
    rw [dedupeAux] at h
    split at h
    · exact ih h
    · rcases List.mem_cons.mp h with rfl | h1
      · assumption
      · intro hmem
        exact ih h1 (by simp [hmem])

theorem dedupeAux_pairwise (seen : List (Option String)) (l : List Record) :
    (dedupeAux seen l).Pairwise (fun a b => a.title ≠ b.title) := by
  induction l generalizing seen with
  | nil => simp [dedupeAux]
  | cons r rs ih =>
    rw [dedupeAux]
    split
    · exact ih seen
    · refine List.Pairwise.cons ?_ (ih (r.title :: seen))
      intro b hb heq
      exact dedupeAux_not_seen hb (by simp [heq])

theorem dedupeByTitle_pairwise (l : List Record) :
    (dedupeByTitle l).Pairwise (fun a b => a.title ≠ b.title) :=
  dedupeAux_pairwise [] l

theorem dedupeAux_filter (l : List Record) (seen : List (Option String))
    (t : Option String) :
    (dedupeAux seen l).filter (fun r => r.title == t) =
      if t ∈ seen then [] else (l.filter (fun r => r.title == t)).take 1 := by
  induction l generalizing seen with
  | nil => simp [dedupeAux]
  | cons r rs ih =>
    rw [dedupeAux]
    by_cases hrt : r.title = t
    · subst hrt
      split
      · rename_i hseen
        rw [ih, if_pos hseen]
      · rename_i hseen
        simp only [List.filter_cons, beq_self_eq_true, if_true]
        rw [ih]
        simp [hseen]
    · have hbeq : (r.title == t) = false := by simpa using hrt
      split
      · rw [ih, List.filter_cons, hbeq]
        simp
      · rw [List.filter_cons, hbeq]
        simp only [Bool.false_eq_true, if_false]
        rw [List.filter_cons, hbeq]
        simp only [Bool.false_eq_true, if_false]
        rw [ih]
        by_cases hts : t ∈ seen
        · rw [if_pos hts, if_pos (by simp [hts])]
        · rw [if_neg hts, if_neg ?_]
          intro hmem
          rcases List.mem_cons.mp hmem with h1 | h1
          · exact hrt h1.symm
          · exact hts h1

theorem dedupeByTitle_filter (l : List Record) (t : Option String) :
    (dedupeByTitle l).filter (fun r => r.title == t) =
      (l.filter (fun r => r.title == t)).take 1 := by
  rw [dedupeByTitle, dedupeAux_filter, if_neg (by simp)]

theorem dedupeAux_of_pairwise {l : List Record} (seen : List (Option String))
    (hp : l.Pairwise (fun a b => a.title ≠ b.title))
    (hs : ∀ r ∈ l, r.title ∉ seen) : dedupeAux seen l = l := by
  induction l generalizing seen with
  | nil => rfl
  | cons r rs ih =>
    rw [dedupeAux, if_neg (hs r (by simp))]
    rw [ih (r.title :: seen) (List.Pairwise.sublist (by simp) hp)]
    intro x hx
    simp only [List.mem_cons]
    rintro (h1 | h1)
    · exact (List.pairwise_cons.mp hp).1 x hx h1.symm
    · exact hs x (by simp [hx]) h1

theorem dedupeByTitle_of_pairwise {l : List Record}
    (hp : l.Pairwise (fun a b => a.title ≠ b.title)) : dedupeByTitle l = l :=
  dedupeAux_of_pairwise [] hp (by simp)

/-! ### Helper lemmas: pipeline inversion and provenance -/

theorem cleanRecords_ok {rs : List Record} {out : List CRecord}
    (h : cleanRecords rs = .ok out) :
    out = (imputeAll (dedupeByTitle rs)).filterMap parseRecDate := by
  unfold cleanRecords at h
  split at h
  · exact absurd h (by simp)
  · injection h with h1
    exact h1.symm

theorem parseRecDate_some {r : Record} {c : CRecord}
    (h : parseRecDate r = some c) :
    ∃ s, r.date_added = some s ∧
      ∃ d, parseMDY (pyStrip s) = some d ∧
        c.title = r.title ∧ c.director = r.director ∧ c.country = r.country ∧
        c.date_added = d ∧ c.rtype = r.rtype ∧ c.duration = r.duration ∧
        c.rating = r.rating ∧ c.listed_in = r.listed_in ∧
        c.year_added = d.year ∧ c.month_added = d.month := by
  cases hd : r.date_added with
  | none => simp [parseRecDate, hd] at h
  | some s =>
    simp only [parseRecDate, hd] at h
    cases hp : parseMDY (pyStrip s) with
    | none => simp [hp] at h
    | some d =>
      simp only [hp] at h
      injection h with h1
      subst h1
      exact ⟨s, rfl, d, hp, rfl, rfl, rfl, rfl, rfl, rfl, rfl, rfl, rfl, rfl⟩

/-- Provenance of a cleaned record: every record of the cleaned set comes
from some raw input row, with all pass-through fields equal to the loaded
cells, `director`/`country` imputed, and the date parsed from the
stripped loaded cell. -/
theorem cleanRaw_provenance {rows : List RawRow} {out : List CRecord} {c : CRecord}
    (h : cleanRaw rows = .ok out) (hc : c ∈ out) :
    ∃ w ∈ rows, ∃ s, loadCell w.date_added = some s ∧
      parseMDY (pyStrip s) = some c.date_added ∧
      c.title = loadCell w.title ∧
      c.director = some ((loadCell w.director).getD "Unknown") ∧
      c.country = some ((loadCell w.country).getD "Unknown") ∧
      c.rtype = loadCell w.rtype ∧
      c.duration = loadCell w.duration ∧
      c.rating = loadCell w.rating ∧
      c.listed_in = loadCell w.listed_in ∧
      c.year_added = c.date_added.year ∧
      c.month_added = c.date_added.month := by
  unfold cleanRaw at h
  have hout := cleanRecords_ok h
  subst hout
  obtain ⟨r, hr, hpar⟩ := List.mem_filterMap.mp hc
  obtain ⟨r0, hr0, rfl⟩ := List.mem_map.mp hr
  have hr1 : r0 ∈ loadData rows := mem_dedupeByTitle hr0
  obtain ⟨w, hw, rfl⟩ := List.mem_map.mp hr1
  obtain ⟨s, hs, d, hd, hfields⟩ := parseRecDate_some hpar
  refine ⟨w, hw, s, ?_, ?_, ?_⟩
  · simpa [imputeRecord, loadRow] using hs
  · rw [hfields.2.2.2.1]
    exact hd
  · obtain ⟨ht, hdir, hcountry, hdate, hrt, hdur, hrat, hli, hy, hm⟩ := hfields
    refine ⟨?_, ?_, ?_, ?_, ?_, ?_, ?_, ?_, ?_⟩
    · simpa [imputeRecord, loadRow] using ht
    · simpa [imputeRecord, loadRow] using hdir
    · simpa [imputeRecord, loadRow] using hcountry
    · simpa [imputeRecord, loadRow] using hrt
    · simpa [imputeRecord, loadRow] using hdur
    · simpa [imputeRecord, loadRow] using hrat
    · simpa [imputeRecord, loadRow] using hli
    · rw [hy, hdate]
    · rw [hm, hdate]

theorem pairwise_filterMap_parseRecDate {l : List Record}
    (hp : l.Pairwise (fun a b => a.title ≠ b.title)) :
    (l.filterMap parseRecDate).Pairwise (fun a b => a.title ≠ b.title) := by
  induction l with
  | nil => simp
  | cons r rs ih =>
    rcases List.pairwise_cons.mp hp with ⟨hhead, htail⟩
    rw [List.filterMap_cons]
    cases hpr : parseRecDate r with
    | none => exact ih htail
    | some c =>
      refine List.Pairwise.cons ?_ (ih htail)
      intro b hb
      obtain ⟨rb, hrb, hprb⟩ := List.mem_filterMap.mp hb
      obtain ⟨_, _, _, _, hct, -⟩ := parseRecDate_some hpr
      obtain ⟨_, _, _, _, hbt, -⟩ := parseRecDate_some hprb
      rw [hct, hbt]
      exact hhead rb hrb

/-- Titles of the cleaned set are pairwise distinct: the dedup pass makes
them distinct and the later passes only map title-preserving functions or
drop records. -/
theorem cleanRaw_titles_pairwise {rows : List RawRow} {out : List CRecord}
    (h : cleanRaw rows = .ok out) :
    out.Pairwise (fun a b => a.title ≠ b.title) := by
  unfold cleanRaw at h
  have hout := cleanRecords_ok h
  subst hout
  apply pairwise_filterMap_parseRecDate
  unfold imputeAll
  rw [List.pairwise_map]
  exact (dedupeByTitle_pairwise (loadData rows)).imp
    (by intro a b hab; simpa [imputeRecord] using hab)

/-! ### Helper lemmas: re-running the pipeline on the written output -/

theorem loadCell_unknown_fill (x : String) :
    loadCell ((loadCell x).getD "Unknown") = some ((loadCell x).getD "Unknown") := by
  by_cases hx : x ∈ naStrings
  · simp only [loadCell, if_pos hx, Option.getD_none]
    decide
  · simp only [loadCell, if_neg hx, Option.getD_some, if_neg hx]

theorem parseRecDate_iso {r : Record} {d : Date}
    (h : r.date_added = some (isoDate d)) : parseRecDate r = none := by
  simp [parseRecDate, h, parseMDY_isoDate]

theorem takeWhile_append_of_all {p : Char → Bool} (xs : List Char) {y : Char}
    (ys : List Char) (hxs : ∀ c ∈ xs, p c = true) (hy : p y = false) :
    (xs ++ y :: ys).takeWhile p = xs := by
  induction xs with
  | nil => simp [List.takeWhile_cons, hy]
  | cons x xs ih =>
    simp only [List.cons_append, List.takeWhile_cons, hxs x (by simp), if_true]
    rw [ih (fun c hc => hxs c (by simp [hc]))]

theorem dropWhile_append_of_all {p : Char → Bool} (xs : List Char) {y : Char}
    (ys : List Char) (hxs : ∀ c ∈ xs, p c = true) (hy : p y = false) :
    (xs ++ y :: ys).dropWhile p = y :: ys := by
  induction xs with
  | nil => simp [List.dropWhile_cons, hy]
  | cons x xs ih =>
    simp only [List.cons_append, List.dropWhile_cons, hxs x (by simp), if_true]
    exact ih (fun c hc => hxs c (by simp [hc]))

theorem afterSign_digit {c : Char} (h : c.isDigit = true) (cs : List Char) :
    afterSign (c :: cs) = c :: cs := by
  show (if c = '+' || c = '-' then cs else c :: cs) = c :: cs
  simp [isDigit_ne h (show ('+' : Char).isDigit = false by decide),
        isDigit_ne h (show ('-' : Char).isDigit = false by decide)]

theorem stripSpacesList_id {cs : List Char} (h : ∀ c ∈ cs, c ≠ ' ') :
    stripSpacesList cs = cs := by
  unfold stripSpacesList
  have h1 : ∀ c ∈ cs, (fun c => decide (c = ' ')) c = false := by
    intro c hc
    simpa using h c hc
  rw [dropWhile_of_all_false h1]
  rw [dropWhile_of_all_false (fun c hc => h1 c (List.mem_reverse.mp hc))]
  simp

theorem floatBody_digits_dash (xs ys : List Char)
    (hxs : ∀ c ∈ xs, c.isDigit = true) :
    floatBody (xs ++ '-' :: ys) = false := by
  unfold floatBody
  rw [dropWhile_append_of_all xs ys hxs (by decide)]
  simp [expOk]

/-- The persisted ISO date cell is not a numeric token: its interior
dash cannot appear in a float body. -/
theorem csvFloatLike_isoDate (d : Date) : csvFloatLike (isoDate d) = false := by
  have hns : ∀ c ∈ (isoDate d).data, c ≠ ' ' := by
    intro c hc
    rcases isoDate_chars d c hc with h1 | rfl
    · exact isDigit_ne h1 (by decide)
    · decide
  have hid : stripSpacesList (isoDate d).data = (isoDate d).data := stripSpacesList_id hns
  have hsign : afterSign (isoDate d).data = (isoDate d).data := by
    rw [isoDate_data]
    exact afterSign_digit (digitChar_isDigit _) _
  have hlen : (isoDate d).data.length = 10 := rfl
  have hfb : floatBody (isoDate d).data = false := by
    rw [show (isoDate d).data =
      pad4 d.year ++ '-' :: (pad2 d.month ++ '-' :: pad2 d.day) from rfl]
    apply floatBody_digits_dash
    intro c hc
    simp only [pad4, List.mem_cons, List.not_mem_nil, or_false] at hc
    rcases hc with rfl | rfl | rfl | rfl <;> exact digitChar_isDigit _
  have hinf : ¬((isoDate d).data.map asciiLower = ("inf" : String).data) := by
    intro hcontra
    have := congrArg List.length hcontra
    rw [List.length_map, hlen] at this
    exact absurd this (by decide)
  have hinfinity : ¬((isoDate d).data.map asciiLower = ("infinity" : String).data) := by
    intro hcontra
    have := congrArg List.length hcontra
    rw [List.length_map, hlen] at this
    exact absurd this (by decide)
  unfold csvFloatLike
  rw [hid, hsign]
  simp [hfb, hinf, hinfinity]

/-- The persisted ISO date cell is not a boolean token (wrong length). -/
theorem csvBoolLike_isoDate (d : Date) : csvBoolLike (isoDate d) = false := by
  have hlen : (isoDate d).data.length = 10 := rfl
  have h1 : ¬((isoDate d).data.map asciiLower = ("true" : String).data) := by
    intro hcontra
    have := congrArg List.length hcontra
    rw [List.length_map, hlen] at this
    exact absurd this (by decide)
  have h2 : ¬((isoDate d).data.map asciiLower = ("false" : String).data) := by
    intro hcontra
    have := congrArg List.length hcontra
    rw [List.length_map, hlen] at this
    exact absurd this (by decide)
  unfold csvBoolLike
  simp [h1, h2]

/-- Re-running the cleaning pipeline on the written cleaned output
(restricted to the original columns) always yields the empty record set:
the ISO date cells keep the reloaded column object-of-strings (no raise),
but `YYYY-MM-DD` never matches the `%m/%d/%Y` format, so every record is
coerced to `NaT` and dropped. -/
theorem secondRun_empty (out : List CRecord) :
    cleanRaw (out.map (fun c => restrictRow (persistRecord c))) = .ok [] := by
  have hcells : ∀ r ∈ loadData (out.map (fun c => restrictRow (persistRecord c))),
      ∃ d : Date, r.date_added = some (isoDate d) := by
    intro r hr
    obtain ⟨w, hw, rfl⟩ := List.mem_map.mp hr
    obtain ⟨c, _hc, rfl⟩ := List.mem_map.mp hw
    refine ⟨c.date_added, ?_⟩
    show loadCell (restrictRow (persistRecord c)).date_added = some (isoDate c.date_added)
    rw [show (restrictRow (persistRecord c)).date_added = isoDate c.date_added from rfl]
    exact loadCell_isoDate c.date_added
  have hno : dateColumnNonObject
      (loadData (out.map (fun c => restrictRow (persistRecord c)))) = false := by
    unfold dateColumnNonObject
    cases hl : loadData (out.map (fun c => restrictRow (persistRecord c))) with
    | nil => rfl
    | cons r0 rest =>
      have hr0 : r0 ∈ loadData (out.map (fun c => restrictRow (persistRecord c))) := by
        rw [hl]
        simp
      obtain ⟨d0, hd0⟩ := hcells r0 hr0
      have hf : (loadData (out.map (fun c => restrictRow (persistRecord c)))).all
          (fun r => cellFloatish r.date_added) = false := by
        cases hx : (loadData (out.map (fun c => restrictRow (persistRecord c)))).all
            (fun r => cellFloatish r.date_added) with
        | false => rfl
        | true =>
          exfalso
          have h1 := List.all_eq_true.mp hx r0 hr0
          rw [hd0, show cellFloatish (some (isoDate d0)) = csvFloatLike (isoDate d0)
            from rfl, csvFloatLike_isoDate] at h1
          exact absurd h1 (by simp)
      have hb : (loadData (out.map (fun c => restrictRow (persistRecord c)))).all
          (fun r => cellBoolish r.date_added) = false := by
        cases hx : (loadData (out.map (fun c => restrictRow (persistRecord c)))).all
            (fun r => cellBoolish r.date_added) with
        | false => rfl
        | true =>
          exfalso
          have h1 := List.all_eq_true.mp hx r0 hr0
          rw [hd0, show cellBoolish (some (isoDate d0)) = csvBoolLike (isoDate d0)
            from rfl, csvBoolLike_isoDate] at h1
          exact absurd h1 (by simp)
      rw [hl] at hf hb
      rw [hf, hb]
      simp
  unfold cleanRaw cleanRecords
  rw [if_neg (by simp [hno])]
  refine congrArg Except.ok (List.filterMap_eq_nil_iff.mpr ?_)
  intro r hr
  obtain ⟨r0, hr0, rfl⟩ := List.mem_map.mp hr
  have hr1 : r0 ∈ loadData (out.map (fun c => restrictRow (persistRecord c))) :=
    mem_dedupeByTitle hr0
  obtain ⟨d, hd⟩ := hcells r0 hr1
  exact parseRecDate_iso (by simpa [imputeRecord] using hd)

/-! ### Helper lemmas: duration strings -/

theorem natDigits_ne_space (n : Nat) : ∀ c ∈ natDigits n, c ≠ ' ' :=
  fun c hc => isDigit_ne (natDigits_all_digit n c hc) (by decide)

theorem pyReplace_min (n : Nat) :
    pyReplace (natStr n ++ " min") " min" "" = natStr n := by
  unfold pyReplace natStr
  rw [String.data_append]
  rw [show (" min" : String).data = ' ' :: ['m', 'i', 'n'] from rfl]
  rw [show (String.mk (natDigits n)).data = natDigits n from rfl]
  rw [show ("" : String).data = [] from rfl]
  rw [replaceList_append_end [] (natDigits_ne_space n)]
  simp

theorem pyReplace_seasons (n : Nat) :
    pyReplace (natStr n ++ " Seasons") " Seasons" "" = natStr n := by
  unfold pyReplace natStr
  rw [String.data_append]
  rw [show (" Seasons" : String).data = ' ' :: ['S', 'e', 'a', 's', 'o', 'n', 's'] from rfl]
  rw [show (String.mk (natDigits n)).data = natDigits n from rfl]
  rw [show ("" : String).data = [] from rfl]
  rw [replaceList_append_end [] (natDigits_ne_space n)]
  simp

theorem pyReplace_season_digits (n : Nat) :
    pyReplace (natStr n) " Season" "" = natStr n := by
  unfold pyReplace natStr
  rw [show (String.mk (natDigits n)).data = natDigits n from rfl]
  rw [replaceList_of_noOccur]
  rw [show (" Season" : String).data = ' ' :: ['S', 'e', 'a', 's', 'o', 'n'] from rfl]
  have := @noOccur_append ' ' ['S', 'e', 'a', 's', 'o', 'n'] (natDigits n) []
    (natDigits_ne_space n) (by decide)
  simpa using this

theorem pyReplace_seasons_noop (n : Nat) :
    pyReplace (natStr n ++ " Season") " Seasons" "" = natStr n ++ " Season" := by
  have hdata : (natStr n ++ " Season").data = natDigits n ++ (" Season" : String).data := by
    rw [String.data_append]
    rfl
  unfold pyReplace
  rw [hdata]
  rw [show (" Seasons" : String).data = ' ' :: ['S', 'e', 'a', 's', 'o', 'n', 's'] from rfl]
  rw [replaceList_of_noOccur _ (noOccur_append (natDigits_ne_space n) (by decide))]
  rw [← hdata]

theorem pyReplace_season (n : Nat) :
    pyReplace (natStr n ++ " Season") " Season" "" = natStr n := by
  unfold pyReplace natStr
  rw [String.data_append]
  rw [show (" Season" : String).data = ' ' :: ['S', 'e', 'a', 's', 'o', 'n'] from rfl]
  rw [show (String.mk (natDigits n)).data = natDigits n from rfl]
  rw [show ("" : String).data = [] from rfl]
  rw [replaceList_append_end [] (natDigits_ne_space n)]
  simp

theorem movieDuration_wellFormed (n : Nat) :
    movieDuration (some (natStr n ++ " min")) = .ok (Int.ofNat n) := by
  show (match pyInt (pyReplace (natStr n ++ " min") " min" "") with
        | some k => Except.ok k
        | none => Except.error "ValueError: invalid literal for int()") =
      Except.ok (Int.ofNat n)
  rw [pyReplace_min]
  rw [show natStr n = (⟨natDigits n⟩ : String) from rfl, pyInt_natDigits]

theorem tvDuration_wellFormed_plural (n : Nat) :
    tvDuration (some (natStr n ++ " Seasons")) = .ok (Int.ofNat n) := by
  show (match pyInt (pyReplace (pyReplace (natStr n ++ " Seasons") " Seasons" "")
          " Season" "") with
        | some k => Except.ok k
        | none => Except.error "ValueError: invalid literal for int()") =
      Except.ok (Int.ofNat n)
  rw [pyReplace_seasons, pyReplace_season_digits]
  rw [show natStr n = (⟨natDigits n⟩ : String) from rfl, pyInt_natDigits]

theorem tvDuration_wellFormed_singular (n : Nat) :
    tvDuration (some (natStr n ++ " Season")) = .ok (Int.ofNat n) := by
  show (match pyInt (pyReplace (pyReplace (natStr n ++ " Season") " Seasons" "")
          " Season" "") with
        | some k => Except.ok k
        | none => Except.error "ValueError: invalid literal for int()") =
      Except.ok (Int.ofNat n)
  rw [pyReplace_seasons_noop, pyReplace_season]
  rw [show natStr n = (⟨natDigits n⟩ : String) from rfl, pyInt_natDigits]

/-- Strip exactly a trailing label `lab` from `s`: `some` remainder when
`s` ends with `lab`, else `none`. -/
def stripTrailing (lab s : String) : Option String :=
  if leadsWith lab.data.reverse s.data.reverse then
    some ⟨(s.data.reverse.drop lab.data.length).reverse⟩
  else none

/-- Modelled from the claim's words, for comparison with the code: parse a
movie duration by stripping exactly the trailing unit label `" min"` and
converting the remainder to an integer (no trailing label, or a
non-numeric remainder, is a parse failure). -/
def specMovieDuration (s : String) : Option Int :=
  match stripTrailing " min" s with
  | some r => pyInt r
  | none => none

/-! ### Concrete example rows -/

/-- A row with a null (empty-cell) director, duplicate title `"Show A"`,
and surrounding whitespace in the date. -/
def wRowA : RawRow :=
  ⟨"Show A", "", "United States", " 9/25/2021 ", "Movie", "90 min", "PG-13", "Dramas"⟩

/-- A later duplicate of `"Show A"` carrying a real director name. -/
def wRowA2 : RawRow :=
  ⟨"Show A", "Jane Doe", "India", "9/26/2021", "Movie", "100 min", "PG", "Comedies"⟩

/-- A TV-show row whose country is the null marker `"Not Given"`. -/
def wRowB : RawRow :=
  ⟨"Show B", "John Smith", "Not Given", "1/2/2020", "TV Show", "3 Seasons", "TV-MA", "TV Dramas"⟩

/-- A row whose `date_added` does not match the `%m/%d/%Y` format. -/
def wRowBad : RawRow :=
  ⟨"Show C", "Ann Lee", "Canada", "not a date", "Movie", "10 min", "R", "Horror"⟩

/-- The standard four-row example input. -/
def wRows : List RawRow := [wRowA, wRowA2, wRowB, wRowBad]

/-- A row whose `date_added` cell is empty (loads as `NaN`). -/
def wRowEmptyDate : RawRow :=
  ⟨"Show E", "Dir", "US", "", "Movie", "90 min", "PG", "Dramas"⟩

/-- A row whose director cell is literally the string `"Unknown"`. -/
def wRowUnknownDir : RawRow :=
  ⟨"Show U", "Unknown", "US", "9/25/2021", "Movie", "90 min", "PG", "Dramas"⟩

/-- A row whose rating cell is literally `"Not Given"`. -/
def wRowNotGivenRating : RawRow :=
  ⟨"Show G", "Dir", "US", "9/25/2021", "Movie", "90 min", "Not Given", "Dramas"⟩

/-- The cleaned record surviving from `wRowA` (first `"Show A"` occurrence). -/
def cOutA : CRecord :=
  ⟨some "Show A", some "Unknown", some "United States", ⟨2021, 9, 25⟩,
   some "Movie", some "90 min", some "PG-13", some "Dramas", 2021, 9⟩

/-- The cleaned record surviving from `wRowB`. -/
def cOutB : CRecord :=
  ⟨some "Show B", some "John Smith", some "Unknown", ⟨2020, 1, 2⟩,
   some "TV Show", some "3 Seasons", some "TV-MA", some "TV Dramas", 2020, 1⟩

/-- The cleaned record from `wRowUnknownDir`. -/
def cOutU : CRecord :=
  ⟨some "Show U", some "Unknown", some "US", ⟨2021, 9, 25⟩,
   some "Movie", some "90 min", some "PG", some "Dramas", 2021, 9⟩

/-- The cleaned record from `wRowNotGivenRating` (its rating loaded as null). -/
def cOutG : CRecord :=
  ⟨some "Show G", some "Dir", some "US", ⟨2021, 9, 25⟩,
   some "Movie", some "90 min", none, some "Dramas", 2021, 9⟩

/-- A cleaned movie record with a malformed duration string. -/
def cBadMovie : CRecord :=
  ⟨some "Show X", some "Dir", some "US", ⟨2021, 9, 25⟩,
   some "Movie", some "ninety min", some "PG", some "Dramas", 2021, 9⟩

/-! ### The claims -/

/-- C1, counterexample to the claim as stated: a record whose raw
`date_added` is an empty string is not "dropped rather than raising an
error" — when every `date_added` in the set is null the date column is
non-string and `data['date_added'].str.strip()` raises, so the single-row
input with an empty date cell makes the cleaning pipeline raise instead
of dropping the row. -/
theorem netflix_C1_counterexample :
    cleanRaw [wRowEmptyDate] =
      .error "AttributeError: Can only use .str accessor with string values" := rfl

/-- C1 (amended: provided the cleaning run completes — the loaded
`date_added` column holds at least one plain-string cell, so `read_csv`
keeps it as strings and the trim step does not raise): every
cleaned record's `date_added` is obtained by trimming surrounding
whitespace from the raw string and parsing it with the fixed
month/day/4-digit-year pattern, `year_added`/`month_added` equal the
parsed date's year and month, and the stated examples hold
(`" 9/25/2021 "` trims and parses to `2021-09-25`; a non-matching value
such as `"not a date"` becomes null, so its record is dropped). -/
theorem netflix_C1_dates (rows : List RawRow) (out : List CRecord)
    (h : cleanRaw rows = .ok out) :
    (∀ c ∈ out, ∃ w ∈ rows, ∃ s, loadCell w.date_added = some s ∧
        parseMDY (pyStrip s) = some c.date_added ∧
        c.year_added = c.date_added.year ∧ c.month_added = c.date_added.month) ∧
    pyStrip " 9/25/2021 " = "9/25/2021" ∧
    parseMDY "9/25/2021" = some ⟨2021, 9, 25⟩ ∧
    parseMDY (pyStrip "not a date") = none := by
  refine ⟨?_, rfl, rfl, rfl⟩
  intro c hc
  obtain ⟨w, hw, s, hs, hp, _ht, _hdir, _hcty, _hrt, _hdur, _hrat, _hli, hy, hm⟩ :=
    cleanRaw_provenance h hc
  exact ⟨w, hw, s, hs, hp, hy, hm⟩

/-- C1, witness: the amended theorem applied to the four-row example. -/
theorem netflix_C1_witness :
    cleanRaw wRows = .ok [cOutA, cOutB] ∧
      ((∀ c ∈ [cOutA, cOutB], ∃ w ∈ wRows, ∃ s, loadCell w.date_added = some s ∧
          parseMDY (pyStrip s) = some c.date_added ∧
          c.year_added = c.date_added.year ∧ c.month_added = c.date_added.month) ∧
        pyStrip " 9/25/2021 " = "9/25/2021" ∧
        parseMDY "9/25/2021" = some ⟨2021, 9, 25⟩ ∧
        parseMDY (pyStrip "not a date") = none) :=
  ⟨rfl, netflix_C1_dates wRows [cOutA, cOutB] rfl⟩

/-- C2: the cleaned record set has pairwise-distinct titles, and the
dedup pass keeps, for every title, exactly the first record of the input
carrying it (it is a stable sublist of its input, and an input with no
duplicate titles passes through unchanged — zero duplicates is valid). -/
theorem netflix_C2_dedup (rows : List RawRow) (out : List CRecord)
    (h : cleanRaw rows = .ok out) :
    out.Pairwise (fun a b => a.title ≠ b.title) ∧
    (∀ l : List Record,
      (dedupeByTitle l).Sublist l ∧
      (∀ t, (dedupeByTitle l).filter (fun r => r.title == t) =
        (l.filter (fun r => r.title == t)).take 1) ∧
      (l.Pairwise (fun a b => a.title ≠ b.title) → dedupeByTitle l = l)) := by
  refine ⟨cleanRaw_titles_pairwise h, ?_⟩
  intro l
  exact ⟨dedupeAux_sublist [] l, dedupeByTitle_filter l,
    fun hp => dedupeByTitle_of_pairwise hp⟩

/-- C2, witness: applied to the four-row example, which contains a
duplicate title. -/
theorem netflix_C2_witness :
    cleanRaw wRows = .ok [cOutA, cOutB] ∧
      ([cOutA, cOutB] : List CRecord).Pairwise (fun a b => a.title ≠ b.title) :=
  ⟨rfl, (netflix_C2_dedup wRows [cOutA, cOutB] rfl).1⟩

/-- C3, counterexample to the claim as stated: a source row whose
director cell is literally the string `"Unknown"` loads as non-null, and
its cleaned record's director equals the sentinel `"Unknown"` even though
the source value was not null — refuting "equals the sentinel only when
the source value was null/absent". -/
theorem netflix_C3_counterexample :
    cleanRaw [wRowUnknownDir] = .ok [cOutU] ∧
    cOutU.director = some "Unknown" ∧
    loadCell wRowUnknownDir.director = some "Unknown" :=
  ⟨rfl, rfl, rfl⟩

/-- C3 (amended: `director` and `country` are non-null; a null source
value becomes the sentinel `"Unknown"` and a non-null source value passes
through unchanged — which may itself be the literal `"Unknown"`).
Imputation happens after deduplication and independently per field: in
the two-row example where the first `"Show A"` has a null director and
the discarded duplicate carries `"Jane Doe"`, the survivor's director is
`"Unknown"`. -/
theorem netflix_C3_impute (rows : List RawRow) (out : List CRecord)
    (h : cleanRaw rows = .ok out) :
    (∀ c ∈ out, c.director ≠ none ∧ c.country ≠ none ∧
      ∃ w ∈ rows, c.director = some ((loadCell w.director).getD "Unknown") ∧
        c.country = some ((loadCell w.country).getD "Unknown")) ∧
    cleanRaw [wRowA, wRowA2] = .ok [cOutA] ∧
    cOutA.director = some "Unknown" ∧
    loadCell wRowA2.director = some "Jane Doe" := by
  refine ⟨?_, rfl, rfl, rfl⟩
  intro c hc
  obtain ⟨w, hw, _s, _hs, _hp, _ht, hdir, hcty, _hrt, _hdur, _hrat, _hli, _hy, _hm⟩ :=
    cleanRaw_provenance h hc
  exact ⟨by rw [hdir]; simp, by rw [hcty]; simp, w, hw, hdir, hcty⟩

/-- C3, witness: the amended theorem applied to the four-row example. -/
theorem netflix_C3_witness :
    cleanRaw wRows = .ok [cOutA, cOutB] ∧
      (∀ c ∈ [cOutA, cOutB], c.director ≠ none ∧ c.country ≠ none ∧
        ∃ w ∈ wRows, c.director = some ((loadCell w.director).getD "Unknown") ∧
          c.country = some ((loadCell w.country).getD "Unknown")) :=
  ⟨rfl, (netflix_C3_impute wRows [cOutA, cOutB] rfl).1⟩

/-- C4: on a load failure (missing file, or any other exception while
parsing) `analyze_netflix_data` prints the load line and a descriptive
error message, then returns without raising: no cleaning message is
logged, no cleaned file and no image artifact is written, and the process
exits 0. -/
theorem netflix_C4_load_failure :
    (∀ fileName, analyze (.fileNotFound fileName) =
      { log := ["Loading data...",
                "Error: The file '" ++ fileName ++ "' was not found."]
        cleanedWritten := none
        plotsWritten := []
        raised := false
        exitCode := 0 }) ∧
    (∀ msg, analyze (.otherError msg) =
      { log := ["Loading data...",
                "An error occurred while loading data: " ++ msg]
        cleanedWritten := none
        plotsWritten := []
        raised := false
        exitCode := 0 }) :=
  ⟨fun _ => rfl, fun _ => rfl⟩

/-- C5, counterexample to idempotence as claimed: a one-row input cleans
to one record, but re-running the pipeline on the written cleaned output
(restricted to the original columns) drops that record — the persisted
ISO date does not match `%m/%d/%Y` — so the second run's record set is
not the single-run record set. -/
theorem netflix_C5_counterexample :
    cleanRaw [wRowA] = .ok [cOutA] ∧
    cleanRaw ([cOutA].map (fun c => restrictRow (persistRecord c))) = .ok [] ∧
    ([] : List CRecord) ≠ [cOutA] :=
  ⟨rfl, rfl, by decide⟩

/-- C5 (amended: the pipeline is not idempotent — re-running it on the
written cleaned output, restricted to the original columns, always
yields the empty record set, because dates are persisted in ISO
year-month-day form which the month/day/year parser rejects; hence the
two-run result equals the single-run result exactly when the single run
already yields no records). -/
theorem netflix_C5_second_run (rows : List RawRow) (out : List CRecord)
    (h : cleanRaw rows = .ok out) :
    cleanRaw (out.map (fun c => restrictRow (persistRecord c))) = .ok [] ∧
    (cleanRaw (out.map (fun c => restrictRow (persistRecord c))) = cleanRaw rows ↔
      out = []) := by
  refine ⟨secondRun_empty out, ?_⟩
  rw [secondRun_empty out, h]
  constructor
  · intro heq
    injection heq with h1
    exact h1.symm
  · rintro rfl
    rfl

/-- C5, witness: the amended theorem applied to the one-row example. -/
theorem netflix_C5_witness :
    cleanRaw [wRowA] = .ok [cOutA] ∧
      cleanRaw ([cOutA].map (fun c => restrictRow (persistRecord c))) = .ok [] :=
  ⟨rfl, (netflix_C5_second_run [wRowA] [cOutA] rfl).1⟩

/-- C6, counterexample to the claim as stated: the code removes every
occurrence of the substring `" min"`, not just a trailing unit label, so
on the duration string `"5 min5 min"` it yields `55`, where the claimed
trailing-strip parse has the non-numeric remainder `"5 min5"` and fails. -/
theorem netflix_C6_counterexample :
    movieDuration (some "5 min5 min") = .ok 55 ∧
    specMovieDuration "5 min5 min" = none :=
  ⟨rfl, rfl⟩

/-- C6 (amended: movie durations are parsed by removing every occurrence
of the substring `" min"` and TV-show durations by removing every
occurrence of `" Seasons"` then `" Season"`, then converting the
remainder with `int`; on well-formed values `"N min"`/`"N Seasons"`/
`"N Season"` this yields `N`.  A null duration or non-numeric remainder
raises an unhandled error, and rendering aborts: when any movie record's
duration fails to parse, only plots 1-6 are written and neither the
movie-duration nor the TV-season plot is produced). -/
theorem netflix_C6_durations :
    (∀ n : Nat, movieDuration (some (natStr n ++ " min")) = .ok (Int.ofNat n)) ∧
    (∀ n : Nat, tvDuration (some (natStr n ++ " Seasons")) = .ok (Int.ofNat n)) ∧
    (∀ n : Nat, tvDuration (some (natStr n ++ " Season")) = .ok (Int.ofNat n)) ∧
    movieDuration none = .error "ValueError: cannot convert float NaN to integer" ∧
    (∀ out : List CRecord,
      ¬(out ≠ [] ∧ ∀ r ∈ out, r.listed_in = none) →
      (∃ r ∈ out.filter (fun r => r.rtype == some "Movie"),
        durOk (movieDuration r.duration) = false) →
      renderAll out =
        (["plot1_content_type_distribution.png", "plot2_content_added_over_time.png",
          "plot3_top_15_directors.png", "plot4_top_15_countries.png",
          "plot5_top_15_genres.png", "plot6_rating_distribution.png"], true)) := by
  refine ⟨movieDuration_wellFormed, tvDuration_wellFormed_plural,
    tvDuration_wellFormed_singular, rfl, ?_⟩
  intro out hcond hex
  have hall : (out.filter (fun r => r.rtype == some "Movie")).all
      (fun r => durOk (movieDuration r.duration)) = false := by
    obtain ⟨r, hr, hdur⟩ := hex
    cases hba : (out.filter (fun r => r.rtype == some "Movie")).all
        (fun r => durOk (movieDuration r.duration)) with
    | false => rfl
    | true =>
      exfalso
      have := List.all_eq_true.mp hba r hr
      rw [hdur] at this
      exact absurd this (by simp)
  simp [renderAll, hcond, hall]

/-- C6, witness: well-formed parses at 90 minutes and 3 seasons, and the
abort behaviour on a record set containing a malformed movie duration. -/
theorem netflix_C6_witness :
    movieDuration (some (natStr 90 ++ " min")) = .ok (Int.ofNat 90) ∧
    tvDuration (some (natStr 3 ++ " Seasons")) = .ok (Int.ofNat 3) ∧
    renderAll [cBadMovie] =
      (["plot1_content_type_distribution.png", "plot2_content_added_over_time.png",
        "plot3_top_15_directors.png", "plot4_top_15_countries.png",
        "plot5_top_15_genres.png", "plot6_rating_distribution.png"], true) :=
  ⟨netflix_C6_durations.1 90, netflix_C6_durations.2.1 3,
   netflix_C6_durations.2.2.2.2 [cBadMovie] (by decide) (by decide)⟩

/-- C7, counterexample to the claim as stated: a source rating cell that
is literally `"Not Given"` is converted to null on load (the marker list
applies to every column), and is persisted as an empty cell — not passed
through unmodified. -/
theorem netflix_C7_counterexample :
    cleanRaw [wRowNotGivenRating] = .ok [cOutG] ∧
    wRowNotGivenRating.rating = "Not Given" ∧
    (persistRecord cOutG).rating = "" ∧
    (persistRecord cOutG).rating ≠ wRowNotGivenRating.rating :=
  ⟨rfl, rfl, rfl, by decide⟩

/-- C7 (amended: `rating` and `listed_in` pass through the pipeline
unmodified except for the load-time null filter — a source value that is
not a null marker (such as `"Not Given"`) is persisted verbatim, while a
null-marker value loads as null and is written back as an empty cell). -/
theorem netflix_C7_passthrough (rows : List RawRow) (out : List CRecord)
    (h : cleanRaw rows = .ok out) :
    ∀ c ∈ out, ∃ w ∈ rows,
      c.rating = loadCell w.rating ∧ c.listed_in = loadCell w.listed_in ∧
      (persistRecord c).rating = encodeOpt (loadCell w.rating) ∧
      (persistRecord c).listed_in = encodeOpt (loadCell w.listed_in) ∧
      (w.rating ∉ naStrings → (persistRecord c).rating = w.rating) ∧
      (w.listed_in ∉ naStrings → (persistRecord c).listed_in = w.listed_in) := by
  intro c hc
  obtain ⟨w, hw, _s, _hs, _hp, _ht, _hdir, _hcty, _hrt, _hdur, hrat, hli, _hy, _hm⟩ :=
    cleanRaw_provenance h hc
  refine ⟨w, hw, hrat, hli, ?_, ?_, ?_, ?_⟩
  · show encodeOpt c.rating = encodeOpt (loadCell w.rating)
    rw [hrat]
  · show encodeOpt c.listed_in = encodeOpt (loadCell w.listed_in)
    rw [hli]
  · intro hna
    show encodeOpt c.rating = w.rating
    rw [hrat]
    simp [loadCell, hna, encodeOpt]
  · intro hna
    show encodeOpt c.listed_in = w.listed_in
    rw [hli]
    simp [loadCell, hna, encodeOpt]

/-- C7, witness: the amended theorem applied to the four-row example. -/
theorem netflix_C7_witness :
    cleanRaw wRows = .ok [cOutA, cOutB] ∧
      (∀ c ∈ [cOutA, cOutB], ∃ w ∈ wRows,
        c.rating = loadCell w.rating ∧ c.listed_in = loadCell w.listed_in ∧
        (persistRecord c).rating = encodeOpt (loadCell w.rating) ∧
        (persistRecord c).listed_in = encodeOpt (loadCell w.listed_in) ∧
        (w.rating ∉ naStrings → (persistRecord c).rating = w.rating) ∧
        (w.listed_in ∉ naStrings → (persistRecord c).listed_in = w.listed_in)) :=
  ⟨rfl, netflix_C7_passthrough wRows [cOutA, cOutB] rfl⟩

/-- Reloading a persisted cleaned record through the loader reproduces
every field: pass-through strings survive the null filter (they are never
null markers), the ISO date cell and the decimal derived cells reload as
themselves, and null fields round-trip through the empty cell. -/
theorem reload_persist {rows : List RawRow} {out : List CRecord}
    (h : cleanRaw rows = .ok out) :
    ∀ c ∈ out, reloadRow (persistRecord c) =
      { title := c.title, director := c.director, country := c.country,
        date_added := some (isoDate c.date_added), rtype := c.rtype,
        duration := c.duration, rating := c.rating, listed_in := c.listed_in,
        year_added := some (natStr c.year_added),
        month_added := some (natStr c.month_added) } := by
  intro c hc
  obtain ⟨w, _hw, _s, _hs, _hp, ht, hdir, hcty, hrt, hdur, hrat, hli, _hy, _hm⟩ :=
    cleanRaw_provenance h hc
  show ReloadedRow.mk (loadCell (encodeOpt c.title)) (loadCell (encodeOpt c.director))
      (loadCell (encodeOpt c.country)) (loadCell (isoDate c.date_added))
      (loadCell (encodeOpt c.rtype)) (loadCell (encodeOpt c.duration))
      (loadCell (encodeOpt c.rating)) (loadCell (encodeOpt c.listed_in))
      (loadCell (natStr c.year_added)) (loadCell (natStr c.month_added)) = _
  simp only [ReloadedRow.mk.injEq]
  refine ⟨?_, ?_, ?_, ?_, ?_, ?_, ?_, ?_, ?_, ?_⟩
  · rw [ht]
    exact loadCell_roundTrip _
  · rw [hdir]
    exact loadCell_unknown_fill w.director
  · rw [hcty]
    exact loadCell_unknown_fill w.country
  · exact loadCell_isoDate _
  · rw [hrt]
    exact loadCell_roundTrip _
  · rw [hdur]
    exact loadCell_roundTrip _
  · rw [hrat]
    exact loadCell_roundTrip _
  · rw [hli]
    exact loadCell_roundTrip _
  · exact loadCell_natStr _
  · exact loadCell_natStr _

/-- C9: writing the cleaned record set and reloading the written rows
through the loader yields the same record count, the same sequence (hence
set) of `title` values, and the same `year_added`/`month_added` values as
the written set (reloaded as their decimal renderings — the reload is a
pass-through, nothing is re-derived). -/
theorem netflix_C9_roundtrip (rows : List RawRow) (out : List CRecord)
    (h : cleanRaw rows = .ok out) :
    ((out.map persistRecord).map reloadRow).length = out.length ∧
    ((out.map persistRecord).map reloadRow).map (fun r => r.title) =
      out.map (fun c => c.title) ∧
    ((out.map persistRecord).map reloadRow).map (fun r => r.year_added) =
      out.map (fun c => some (natStr c.year_added)) ∧
    ((out.map persistRecord).map reloadRow).map (fun r => r.month_added) =
      out.map (fun c => some (natStr c.month_added)) := by
  have hper := reload_persist h
  refine ⟨by simp, ?_, ?_, ?_⟩ <;>
    · rw [List.map_map, List.map_map]
      apply List.map_congr_left
      intro c hc
      simp [Function.comp, hper c hc]

/-- C9, witness: the round-trip theorem applied to the four-row example. -/
theorem netflix_C9_witness :
    cleanRaw wRows = .ok [cOutA, cOutB] ∧
      ((([cOutA, cOutB].map persistRecord).map reloadRow).length =
        ([cOutA, cOutB] : List CRecord).length ∧
      (([cOutA, cOutB].map persistRecord).map reloadRow).map (fun r => r.title) =
        [cOutA, cOutB].map (fun c => c.title) ∧
      (([cOutA, cOutB].map persistRecord).map reloadRow).map (fun r => r.year_added) =
        [cOutA, cOutB].map (fun c => some (natStr c.year_added)) ∧
      (([cOutA, cOutB].map persistRecord).map reloadRow).map (fun r => r.month_added) =
        [cOutA, cOutB].map (fun c => some (natStr c.month_added))) :=
  ⟨rfl, netflix_C9_roundtrip wRows [cOutA, cOutB] rfl⟩

/-- C10: the pipeline is deterministic — two runs on identical input
content produce the same cleaned record set, the same run result (log,
artifacts, exit code), and in particular the same bytes written to the
cleaned output file. -/
theorem netflix_C10_deterministic (rows1 rows2 : List RawRow) (h : rows1 = rows2) :
    cleanRaw rows1 = cleanRaw rows2 ∧
    analyze (.ok rows1) = analyze (.ok rows2) ∧
    (analyze (.ok rows1)).cleanedWritten = (analyze (.ok rows2)).cleanedWritten := by
  subst h
  exact ⟨rfl, rfl, rfl⟩

/-- C10, witness: applied to the four-row example against itself. -/
theorem netflix_C10_witness :
    cleanRaw wRows = cleanRaw wRows ∧
    analyze (.ok wRows) = analyze (.ok wRows) ∧
    (analyze (.ok wRows)).cleanedWritten = (analyze (.ok wRows)).cleanedWritten :=
  netflix_C10_deterministic wRows wRows rfl
